import Mathlib

/-!
Shallow embedding of the postgraphile schema-build lifecycle and WebSocket
subscription bridge (src/postgraphile/postgraphile.ts and
src/postgraphile/http/subscriptions.ts), with theorems checking the
specification claims against the embedded code.

JavaScript objects used as string-keyed records are modelled as association
lists with at most one binding per key; `aget` is property read, `aset` is
property assignment (overwrite in place when the key exists, append when new,
matching JS object semantics including property order).
-/

def aget {κ α : Type} [DecidableEq κ] : List (κ × α) → κ → Option α
  | [], _ => none
  | (k1, v) :: t, k => if k1 = k then some v else aget t k

def aset {κ α : Type} [DecidableEq κ] : List (κ × α) → κ → α → List (κ × α)
  | [], k, v => [(k, v)]
  | (k1, v1) :: t, k, v => if k1 = k then (k, v) :: t else (k1, v1) :: aset t k v

/-- Left-biased choice on options, mirroring how a later JS object spread
entry shadows an earlier one when lookups are described key-by-key. -/
def oor {α : Type} : Option α → Option α → Option α
  | some v, _ => some v
  | none, b => b

/-- A record has at most one binding per key. -/
def NodupKeys {κ α : Type} (l : List (κ × α)) : Prop := (l.map Prod.fst).Nodup

instance {κ α : Type} [DecidableEq κ] (l : List (κ × α)) : Decidable (NodupKeys l) :=
  inferInstanceAs (Decidable (l.map Prod.fst).Nodup)

theorem aget_aset_self {κ α : Type} [DecidableEq κ] (l : List (κ × α)) (k : κ) (v : α) :
    aget (aset l k v) k = some v := by
  induction l with
  | nil => simp [aset, aget]
  | cons p t ih =>
    obtain ⟨k1, v1⟩ := p
    by_cases hk : k1 = k
    · simp [aset, aget, hk]
    · simp [aset, aget, hk, ih]

theorem aget_aset_ne {κ α : Type} [DecidableEq κ] (l : List (κ × α)) (k k2 : κ) (v : α)
    (hk : k2 ≠ k) : aget (aset l k v) k2 = aget l k2 := by
  have hk2 : ¬k = k2 := fun h => hk h.symm
  induction l with
  | nil => simp [aset, aget, hk2]
  | cons p t ih =>
    obtain ⟨k1, v1⟩ := p
    by_cases h1 : k1 = k
    · subst h1
      simp [aset, aget, hk2]
    · by_cases h2 : k1 = k2
      · subst h2
        simp [aset, aget, h1]
      · simp [aset, aget, h1, h2, ih]

theorem aget_eq_none {κ α : Type} [DecidableEq κ] {l : List (κ × α)} {k : κ}
    (h : ∀ p ∈ l, p.1 ≠ k) : aget l k = none := by
  induction l with
  | nil => rfl
  | cons p t ih =>
    obtain ⟨k1, v1⟩ := p
    have hne : k1 ≠ k := h (k1, v1) (List.mem_cons_self _ _)
    simp only [aget, if_neg hne]
    exact ih (fun q hq => h q (List.mem_cons_of_mem _ hq))

theorem aget_mem {κ α : Type} [DecidableEq κ] {l : List (κ × α)} {k : κ} {v : α}
    (h : aget l k = some v) : (k, v) ∈ l := by
  induction l with
  | nil => simp [aget] at h
  | cons p t ih =>
    obtain ⟨k1, v1⟩ := p
    by_cases hk : k1 = k
    · subst hk
      simp [aget] at h
      subst h
      exact List.mem_cons_self _ _
    · simp only [aget, if_neg hk] at h
      exact List.mem_cons_of_mem _ (ih h)

theorem aget_append_left {κ α : Type} [DecidableEq κ] {l l2 : List (κ × α)} {k : κ} {v : α}
    (h : aget l k = some v) : aget (l ++ l2) k = some v := by
  induction l with
  | nil => simp [aget] at h
  | cons p t ih =>
    obtain ⟨k1, v1⟩ := p
    by_cases hk : k1 = k
    · simp_all [aget]
    · simp only [aget, if_neg hk] at h ⊢
      exact ih h

theorem aget_append_right {κ α : Type} [DecidableEq κ] {l l2 : List (κ × α)} {k : κ}
    (h : aget l k = none) : aget (l ++ l2) k = aget l2 k := by
  induction l with
  | nil => rfl
  | cons p t ih =>
    obtain ⟨k1, v1⟩ := p
    by_cases hk : k1 = k
    · simp [aget, hk] at h
    · simp only [aget, if_neg hk] at h ⊢
      exact ih h

theorem mem_keys_aset {κ α : Type} [DecidableEq κ] (l : List (κ × α)) (k k2 : κ) (v : α)
    (h : k2 ∈ (aset l k v).map Prod.fst) : k2 = k ∨ k2 ∈ l.map Prod.fst := by
  induction l with
  | nil =>
    simp only [aset, List.map_cons, List.map_nil, List.mem_singleton] at h
    exact Or.inl h
  | cons p t ih =>
    obtain ⟨k1, v1⟩ := p
    simp only [aset] at h
    split at h
    · simp only [List.map_cons, List.mem_cons] at h
      rcases h with h | h
      · exact Or.inl h
      · exact Or.inr (by simp only [List.map_cons, List.mem_cons]; exact Or.inr h)
    · simp only [List.map_cons, List.mem_cons] at h
      rcases h with h | h
      · exact Or.inr (by simp only [List.map_cons, List.mem_cons]; exact Or.inl h)
      · rcases ih h with h2 | h2
        · exact Or.inl h2
        · exact Or.inr (by simp only [List.map_cons, List.mem_cons]; exact Or.inr h2)

theorem NodupKeys_aset {κ α : Type} [DecidableEq κ] (l : List (κ × α)) (k : κ) (v : α)
    (h : NodupKeys l) : NodupKeys (aset l k v) := by
  induction l with
  | nil => simp [NodupKeys, aset]
  | cons p t ih =>
    obtain ⟨k1, v1⟩ := p
    simp only [NodupKeys, List.map_cons, List.nodup_cons] at h
    by_cases hk : k1 = k
    · subst hk
      simpa [NodupKeys, aset, List.nodup_cons] using h
    · have ht := ih h.2
      simp only [NodupKeys, aset, if_neg hk, List.map_cons, List.nodup_cons]
      refine ⟨fun hmem => ?_, ht⟩
      rcases mem_keys_aset t k k1 v hmem with h2 | h2
      · exact hk h2
      · exact h.1 h2

/-- JS object spread followed by a second spread: fold the second record's
entries into the first with assignment semantics. -/
def spreadMerge {κ α : Type} [DecidableEq κ] (a b : List (κ × α)) : List (κ × α) :=
  b.foldl (fun m kv => aset m kv.1 kv.2) a

theorem aget_spreadMerge {κ α : Type} [DecidableEq κ] (a b : List (κ × α)) (k : κ)
    (hb : NodupKeys b) : aget (spreadMerge a b) k = oor (aget b k) (aget a k) := by
  induction b generalizing a with
  | nil => simp [spreadMerge, aget, oor]
  | cons p t ih =>
    obtain ⟨k0, v0⟩ := p
    simp only [NodupKeys, List.map_cons, List.nodup_cons] at hb
    have step : spreadMerge a ((k0, v0) :: t) = spreadMerge (aset a k0 v0) t := rfl
    rw [step, ih (aset a k0 v0) hb.2]
    by_cases hk : k0 = k
    · subst hk
      have htk : aget t k0 = none := by
        refine aget_eq_none (fun q hq => ?_)
        intro hcontra
        exact hb.1 (hcontra ▸ List.mem_map_of_mem Prod.fst hq)
      simp [aget, htk, oor, aget_aset_self]
    · simp [aget, hk, aget_aset_ne a k0 k v0 (fun h => hk h.symm)]

/-! ## WebSocket connect events (subscriptions.ts, onConnect for v0 and v1)

Connection parameters and request headers are string-keyed records of string
values. `jsTruthy` mirrors JavaScript truthiness for the values read off these
records: an absent property (undefined) and the empty string are falsy. -/

def jsTruthy : Option String → Bool
  | none => false
  | some s => s != ""

/-- ASCII lower-casing of a string, modelling the JS String.toLowerCase used
on header and connection-parameter keys. -/
def jsToLower (s : String) : String := String.mk (s.data.map Char.toLower)

/-- The lowerCaseKeys helper from subscriptions.ts: reduce over the keys,
assigning each value at the lower-cased key. -/
def lowerCaseKeys (obj : List (String × String)) : List (String × String) :=
  obj.foldl (fun memo kv => aset memo (jsToLower kv.1) kv.2) []

/-- Shared body of the v0 and v1 onConnect handlers in subscriptions.ts:
lower-case the connection params; when the request has no (truthy)
authorization header but the normalized params carry a truthy authorization
value, copy that value into the request headers; then store
postgraphileHeaders as the spread of the normalized params followed by the
(possibly mutated) request headers. Returns (mutated request headers,
postgraphileHeaders). -/
def onConnect (connectionParams headers : List (String × String)) :
    List (String × String) × List (String × String) :=
  let normalizedConnectionParams := lowerCaseKeys connectionParams
  let headers2 :=
    if !jsTruthy (aget headers "authorization")
        && jsTruthy (aget normalizedConnectionParams "authorization") then
      aset headers "authorization" ((aget normalizedConnectionParams "authorization").getD "")
    else headers
  (headers2, spreadMerge normalizedConnectionParams headers2)

theorem onConnect_fst_of_truthy (connectionParams headers : List (String × String))
    (h : jsTruthy (aget headers "authorization") = true) :
    (onConnect connectionParams headers).1 = headers := by
  simp [onConnect, h]

theorem onConnect_fst_of_copy (connectionParams headers : List (String × String))
    (h1 : jsTruthy (aget headers "authorization") = false)
    (h2 : jsTruthy (aget (lowerCaseKeys connectionParams) "authorization") = true) :
    (onConnect connectionParams headers).1
      = aset headers "authorization"
          ((aget (lowerCaseKeys connectionParams) "authorization").getD "") := by
  simp [onConnect, h1, h2]

theorem onConnect_fst_of_no_param (connectionParams headers : List (String × String))
    (h2 : jsTruthy (aget (lowerCaseKeys connectionParams) "authorization") = false) :
    (onConnect connectionParams headers).1 = headers := by
  simp [onConnect, h2]

theorem onConnect_snd_eq (connectionParams headers : List (String × String)) :
    (onConnect connectionParams headers).2
      = spreadMerge (lowerCaseKeys connectionParams) (onConnect connectionParams headers).1 := rfl

/-- C1 counterexample: with connection parameter authorization = "X" and a real
(but empty-valued) request header authorization = "", the effective
postgraphileHeaders entry is "X" — the connection parameter, not the real
header, wins — and the parameter is copied into the request headers even
though an authorization header was sent. This refutes the claim that the real
headers win on every conflicting key and that the parameter is copied only
when no authorization header was sent: the code tests JS truthiness of the
header value, so an empty authorization header is overridden. -/
theorem onConnect_headers_counterexample :
    aget (onConnect [("authorization", "X")] [("authorization", "")]).2 "authorization" = some "X"
    ∧ aget [(("authorization" : String), ("" : String))] "authorization" = some ""
    ∧ (onConnect [("authorization", "X")] [("authorization", "")]).1 = [("authorization", "X")] := by
  decide

/-- C1 (amended): the postgraphileHeaders map stored for the socket is the
lower-cased connection parameters spread-merged with the request headers where
for every key other than authorization the real header wins on conflict; for
authorization, a non-empty (truthy) real header wins and is never overwritten,
while an absent or empty authorization header is supplemented by a truthy
authorization connection parameter, which is then also copied into the request
headers (only in that case is the parameter copied). -/
theorem onConnect_headers_spec (connectionParams headers : List (String × String))
    (hnd : NodupKeys headers) :
    (∀ k, k ≠ "authorization" →
      aget (onConnect connectionParams headers).2 k
        = oor (aget headers k) (aget (lowerCaseKeys connectionParams) k))
    ∧ (jsTruthy (aget headers "authorization") = true →
        (onConnect connectionParams headers).1 = headers
        ∧ aget (onConnect connectionParams headers).2 "authorization"
            = aget headers "authorization")
    ∧ (jsTruthy (aget headers "authorization") = false →
        jsTruthy (aget (lowerCaseKeys connectionParams) "authorization") = true →
        aget (onConnect connectionParams headers).2 "authorization"
          = aget (lowerCaseKeys connectionParams) "authorization"
        ∧ aget (onConnect connectionParams headers).1 "authorization"
          = aget (lowerCaseKeys connectionParams) "authorization")
    ∧ (jsTruthy (aget (lowerCaseKeys connectionParams) "authorization") = false →
        aget (onConnect connectionParams headers).2 "authorization"
          = oor (aget headers "authorization") (aget (lowerCaseKeys connectionParams) "authorization")) := by
  have hnd2 : NodupKeys (onConnect connectionParams headers).1 := by
    by_cases hh : jsTruthy (aget headers "authorization") = true
    · rw [onConnect_fst_of_truthy connectionParams headers hh]; exact hnd
    · by_cases hp : jsTruthy (aget (lowerCaseKeys connectionParams) "authorization") = true
      · rw [onConnect_fst_of_copy connectionParams headers (Bool.not_eq_true _ ▸ hh) hp]
        exact NodupKeys_aset _ _ _ hnd
      · rw [onConnect_fst_of_no_param connectionParams headers (Bool.not_eq_true _ ▸ hp)]
        exact hnd
  have hmerge : ∀ k, aget (onConnect connectionParams headers).2 k
      = oor (aget (onConnect connectionParams headers).1 k) (aget (lowerCaseKeys connectionParams) k) := by
    intro k
    rw [onConnect_snd_eq]
    exact aget_spreadMerge _ _ k hnd2
  refine ⟨?_, ?_, ?_, ?_⟩
  · intro k hk
    rw [hmerge k]
    by_cases hh : jsTruthy (aget headers "authorization") = true
    · rw [onConnect_fst_of_truthy connectionParams headers hh]
    · by_cases hp : jsTruthy (aget (lowerCaseKeys connectionParams) "authorization") = true
      · rw [onConnect_fst_of_copy connectionParams headers (Bool.not_eq_true _ ▸ hh) hp]
        rw [aget_aset_ne headers "authorization" k _ hk]
      · rw [onConnect_fst_of_no_param connectionParams headers (Bool.not_eq_true _ ▸ hp)]
  · intro hh
    have hfst := onConnect_fst_of_truthy connectionParams headers hh
    refine ⟨hfst, ?_⟩
    rw [hmerge, hfst]
    cases hx : aget headers "authorization" with
    | none => rw [hx] at hh; simp [jsTruthy] at hh
    | some y => rfl
  · intro hh hp
    have hfst := onConnect_fst_of_copy connectionParams headers hh hp
    cases hx : aget (lowerCaseKeys connectionParams) "authorization" with
    | none => rw [hx] at hp; simp [jsTruthy] at hp
    | some x =>
      have hset : aget (onConnect connectionParams headers).1 "authorization" = some x := by
        rw [hfst, hx]
        exact aget_aset_self headers "authorization" x
      refine ⟨?_, hset⟩
      rw [hmerge, hset, hx]
      rfl
  · intro hp
    rw [hmerge]
    by_cases hh : jsTruthy (aget headers "authorization") = true
    · rw [onConnect_fst_of_truthy connectionParams headers hh]
    · rw [onConnect_fst_of_no_param connectionParams headers hp]

/-- C1 witness: a concrete connect event with a non-empty real authorization
header "Y" and a connection parameter "X": the effective value is "Y". -/
theorem onConnect_headers_spec_witness :
    NodupKeys [(("authorization" : String), ("Y" : String))]
    ∧ aget (onConnect [("Authorization", "X")] [("authorization", "Y")]).2 "authorization"
        = some "Y" := by
  refine ⟨by decide, ?_⟩
  have h := onConnect_headers_spec [("Authorization", "X")] [("authorization", "Y")] (by decide)
  have h2 := h.2.1 (by decide)
  exact h2.2.trans (by decide)

/-! ## Deferred context slots (subscriptions.ts)

The keepalivePromisesByContextKey object maps context keys to a Deferred (a
promise with exposed resolve) or null. To observe promise identity and
resolution, every Deferred ever created is given a numeric identity and kept
in a promises table; nextPromiseId is the identity the next created Deferred
will get. -/

structure DeferredInfo where
  resolved : Bool
  context : Nat
deriving DecidableEq

structure SubscriptionsState where
  keepalivePromisesByContextKey : List (String × Option Nat)
  promises : List (Nat × DeferredInfo)
  nextPromiseId : Nat
deriving DecidableEq

/-- contextKey from subscriptions.ts: the socket's postgraphileId and the
operation id joined by a pipe. -/
def contextKey (postgraphileId : Nat) (opId : String) : String :=
  toString postgraphileId ++ "|" ++ opId

/-- Resolving a Deferred by identity: marks it resolved; resolving an
already-resolved promise is a no-op (JS promise semantics). -/
def resolveDeferred : List (Nat × DeferredInfo) → Nat → List (Nat × DeferredInfo)
  | [], _ => []
  | (k1, v1) :: t, pid =>
    (if k1 = pid then (k1, { v1 with resolved := true }) else (k1, v1)) :: resolveDeferred t pid

/-- releaseContextForSocketAndOpId from subscriptions.ts: when the slot holds
a promise, resolve it and null the slot; otherwise do nothing. -/
def releaseContextForSocketAndOpId (st : SubscriptionsState) (ws : Nat) (opId : String) :
    SubscriptionsState :=
  match aget st.keepalivePromisesByContextKey (contextKey ws opId) with
  | some (some pid) =>
    { st with
      promises := resolveDeferred st.promises pid,
      keepalivePromisesByContextKey :=
        aset st.keepalivePromisesByContextKey (contextKey ws opId) none }
  | _ => st

/-- addContextForSocketAndOpId from subscriptions.ts: first release any prior
slot at the key, then create a fresh Deferred carrying the context and store
it in the slot. Returns the new state and the new Deferred identity. -/
def addContextForSocketAndOpId (st : SubscriptionsState) (context : Nat) (ws : Nat)
    (opId : String) : SubscriptionsState × Nat :=
  let st1 := releaseContextForSocketAndOpId st ws opId
  let pid := st1.nextPromiseId
  ({ st1 with
     promises := st1.promises ++ [(pid, { resolved := false, context := context })],
     keepalivePromisesByContextKey :=
       aset st1.keepalivePromisesByContextKey (contextKey ws opId) (some pid),
     nextPromiseId := pid + 1 }, pid)

theorem aget_resolveDeferred_self (ps : List (Nat × DeferredInfo)) (pid : Nat)
    (info : DeferredInfo) (h : aget ps pid = some info) :
    aget (resolveDeferred ps pid) pid = some { info with resolved := true } := by
  induction ps with
  | nil => simp [aget] at h
  | cons p t ih =>
    obtain ⟨k1, v1⟩ := p
    by_cases hk : k1 = pid
    · subst hk
      simp [aget] at h
      subst h
      show aget ((if k1 = k1 then (k1, { v1 with resolved := true }) else (k1, v1))
        :: resolveDeferred t k1) k1 = _
      rw [if_pos rfl]
      simp [aget]
    · simp only [aget, if_neg hk] at h
      show aget ((if k1 = pid then (k1, { v1 with resolved := true }) else (k1, v1))
        :: resolveDeferred t pid) pid = _
      rw [if_neg hk]
      simp only [aget, if_neg hk]
      exact ih h

theorem keys_resolveDeferred (ps : List (Nat × DeferredInfo)) (pid : Nat) :
    (resolveDeferred ps pid).map Prod.fst = ps.map Prod.fst := by
  induction ps with
  | nil => rfl
  | cons p t ih =>
    obtain ⟨k1, v1⟩ := p
    by_cases hk : k1 = pid
    · simp [resolveDeferred, hk, ih]
    · simp [resolveDeferred, hk, ih]

/-- C8: installing a context at a key that already holds a live slot first
resolves the prior entry's Deferred and replaces the slot, and only then
stores a fresh unresolved Deferred holding the new context; the new Deferred
is distinct from the prior one, so at most one live slot exists per key (the
slot map holds a single binding per key, now pointing at the fresh Deferred). -/
theorem addContextForSocketAndOpId_releases_prior
    (st : SubscriptionsState) (context ws : Nat) (opId : String) (pid : Nat)
    (info : DeferredInfo)
    (hslot : aget st.keepalivePromisesByContextKey (contextKey ws opId) = some (some pid))
    (hprom : aget st.promises pid = some info)
    (hwf : ∀ p ∈ st.promises, p.1 < st.nextPromiseId) :
    aget (addContextForSocketAndOpId st context ws opId).1.promises pid
      = some { info with resolved := true }
    ∧ aget (addContextForSocketAndOpId st context ws opId).1.keepalivePromisesByContextKey
        (contextKey ws opId) = some (some st.nextPromiseId)
    ∧ st.nextPromiseId ≠ pid
    ∧ aget (addContextForSocketAndOpId st context ws opId).1.promises st.nextPromiseId
        = some { resolved := false, context := context }
    ∧ (addContextForSocketAndOpId st context ws opId).2 = st.nextPromiseId := by
  have hpidlt : pid < st.nextPromiseId := hwf (pid, info) (aget_mem hprom)
  have hrel : releaseContextForSocketAndOpId st ws opId
      = { st with
          promises := resolveDeferred st.promises pid,
          keepalivePromisesByContextKey :=
            aset st.keepalivePromisesByContextKey (contextKey ws opId) none } := by
    unfold releaseContextForSocketAndOpId
    rw [hslot]
  have hresolved : aget (resolveDeferred st.promises pid) pid
      = some { info with resolved := true } := aget_resolveDeferred_self _ _ _ hprom
  have hnone : aget (resolveDeferred st.promises pid) st.nextPromiseId = none := by
    refine aget_eq_none (fun q hq => ?_)
    have hq2 : q.1 ∈ (resolveDeferred st.promises pid).map Prod.fst := List.mem_map_of_mem _ hq
    rw [keys_resolveDeferred] at hq2
    obtain ⟨r, hr, hrq⟩ := List.mem_map.mp hq2
    have := hwf r hr
    omega
  have hadd : addContextForSocketAndOpId st context ws opId
      = ({ keepalivePromisesByContextKey :=
             aset (aset st.keepalivePromisesByContextKey (contextKey ws opId) none)
               (contextKey ws opId) (some st.nextPromiseId),
           promises := resolveDeferred st.promises pid
             ++ [(st.nextPromiseId, { resolved := false, context := context })],
           nextPromiseId := st.nextPromiseId + 1 }, st.nextPromiseId) := by
    unfold addContextForSocketAndOpId
    rw [hrel]
  rw [hadd]
  refine ⟨aget_append_left hresolved, aget_aset_self _ _ _, by omega, ?_, rfl⟩
  rw [aget_append_right hnone]
  simp [aget]

/-- C8 witness: a concrete state with one live slot for socket 1, operation
"op": installing a new context resolves the old Deferred (identity 0) and
stores a fresh one (identity 1). -/
theorem addContextForSocketAndOpId_releases_prior_witness :
    aget (addContextForSocketAndOpId
        { keepalivePromisesByContextKey := [("1|op", some 0)],
          promises := [(0, { resolved := false, context := 42 })],
          nextPromiseId := 1 } 7 1 "op").1.promises 0
      = some { resolved := true, context := 42 }
    ∧ aget (addContextForSocketAndOpId
        { keepalivePromisesByContextKey := [("1|op", some 0)],
          promises := [(0, { resolved := false, context := 42 })],
          nextPromiseId := 1 } 7 1 "op").1.keepalivePromisesByContextKey "1|op"
      = some (some 1) := by
  have h := addContextForSocketAndOpId_releases_prior
    { keepalivePromisesByContextKey := [("1|op", some 0)],
      promises := [(0, { resolved := false, context := 42 })],
      nextPromiseId := 1 } 7 1 "op" 0 { resolved := false, context := 42 }
    (by decide) (by decide) (by decide)
  exact ⟨h.1, h.2.1⟩

/-! ## enhanceHttpServerWithWebSockets (subscriptions.ts)

The http server is modelled by the flag the code stores on it plus counters
for the observable installation effects: upgrade listeners added and
subscription servers created. The websockets option selects the v0 or v1
protocol adapter; any other value makes the switch statement throw after the
flag was already set and the upgrade listener installed. -/

inductive WsVersion where
  | v0
  | v1
deriving DecidableEq

structure ServerState where
  subscriptionsEnabled : Bool
  upgradeListeners : Nat
  subscriptionServers : Nat
deriving DecidableEq

def enhanceHttpServerWithWebSockets (websockets : Option WsVersion) (s : ServerState) :
    Except String ServerState :=
  if s.subscriptionsEnabled then Except.ok s
  else
    let s1 : ServerState :=
      { subscriptionsEnabled := true,
        upgradeListeners := s.upgradeListeners + 1,
        subscriptionServers := s.subscriptionServers }
    match websockets with
    | some _ => Except.ok { s1 with subscriptionServers := s1.subscriptionServers + 1 }
    | none => Except.error "Invalid websockets argument"

/-- C9: once enhanceHttpServerWithWebSockets has completed on a server, any
later call (with any websockets option) observes the flag set by the first
call and returns immediately with the state unchanged: no second upgrade
listener is installed and no second subscription server is created. -/
theorem enhanceHttpServerWithWebSockets_idempotent
    (w w2 : Option WsVersion) (s s2 : ServerState)
    (h : enhanceHttpServerWithWebSockets w s = Except.ok s2) :
    s2.subscriptionsEnabled = true
    ∧ enhanceHttpServerWithWebSockets w2 s2 = Except.ok s2 := by
  by_cases hs : s.subscriptionsEnabled = true
  · have hok : s2 = s := by
      simp [enhanceHttpServerWithWebSockets, hs] at h
      exact h.symm
    subst hok
    constructor
    · exact hs
    · simp [enhanceHttpServerWithWebSockets, hs]
  · simp only [enhanceHttpServerWithWebSockets, Bool.not_eq_true] at h hs
    rw [hs] at h
    simp only [Bool.false_eq_true, if_false] at h
    cases w with
    | some v =>
      simp only [Except.ok.injEq] at h
      have h2 : s2.subscriptionsEnabled = true := by rw [← h]
      refine ⟨h2, ?_⟩
      simp [enhanceHttpServerWithWebSockets, h2]
    | none => exact absurd h (by simp)

/-- C9 witness: enhancing a fresh server with the v0 protocol, then calling
again with the v1 option: the second call leaves the state untouched. -/
theorem enhanceHttpServerWithWebSockets_idempotent_witness :
    (enhanceHttpServerWithWebSockets (some WsVersion.v0)
        { subscriptionsEnabled := false, upgradeListeners := 0, subscriptionServers := 0 }
      = Except.ok
        { subscriptionsEnabled := true, upgradeListeners := 1, subscriptionServers := 1 })
    ∧ enhanceHttpServerWithWebSockets (some WsVersion.v1)
        { subscriptionsEnabled := true, upgradeListeners := 1, subscriptionServers := 1 }
      = Except.ok
        { subscriptionsEnabled := true, upgradeListeners := 1, subscriptionServers := 1 } := by
  refine ⟨rfl, ?_⟩
  exact (enhanceHttpServerWithWebSockets_idempotent (some WsVersion.v0) (some WsVersion.v1)
    { subscriptionsEnabled := false, upgradeListeners := 0, subscriptionServers := 0 }
    { subscriptionsEnabled := true, upgradeListeners := 1, subscriptionServers := 1 }
    rfl).2

/-! ## Per-operation validation (subscriptions.ts, onOperation v0 / onSubscribe v1)

The GraphQL validate function from the graphql library is an external
collaborator; it is passed in as a parameter mapping (schema, document, rule
list) to the list of violations it finds. Schemas, documents, rules and
execution parameters are opaque and numbered; errors are strings. The modelled
fragment is the per-request validation pipeline: context acquisition, schema
override and plugin-hook transformation of the parameters happen before it and
are abstracted into the finalParams / hookedArgs values. -/

def onOperation (validateF : Nat → Nat → List Nat → List String)
    (schema doc : Nat) (moreValidationRules : List Nat) (finalParams : Nat) :
    Except (List String) Nat :=
  if moreValidationRules.length ≠ 0 then
    let validationErrors := validateF schema doc moreValidationRules
    if validationErrors.length ≠ 0 then Except.error validationErrors
    else Except.ok finalParams
  else Except.ok finalParams

def onSubscribe (validateF : Nat → Nat → List Nat → List String)
    (schema doc : Nat) (staticValidationRules moreValidationRules : List Nat)
    (hookedArgs : Nat) : Except (List String) Nat :=
  let validationErrors := validateF schema doc staticValidationRules
  if validationErrors.length ≠ 0 then Except.error validationErrors
  else if moreValidationRules.length ≠ 0 then
    let moreValidationErrors := validateF schema doc moreValidationRules
    if moreValidationErrors.length ≠ 0 then Except.error moreValidationErrors
    else Except.ok hookedArgs
  else Except.ok hookedArgs

/-- C5: in both protocol versions, when the per-request validation rule set is
non-empty and reports violations, the operation is rejected (no execution
parameters are ever produced, so execution is never attempted) and the error
list surfaced is exactly the violation list computed by the validate call (for
v1 under the proviso that static validation passed, since it runs first). -/
theorem websocket_validation_rejects
    (validateF : Nat → Nat → List Nat → List String) (schema doc : Nat)
    (staticValidationRules moreValidationRules : List Nat) (finalParams hookedArgs : Nat)
    (hrules : moreValidationRules ≠ [])
    (herrs : validateF schema doc moreValidationRules ≠ []) :
    onOperation validateF schema doc moreValidationRules finalParams
      = Except.error (validateF schema doc moreValidationRules)
    ∧ (validateF schema doc staticValidationRules = [] →
        onSubscribe validateF schema doc staticValidationRules moreValidationRules hookedArgs
          = Except.error (validateF schema doc moreValidationRules)) := by
  have hlen : moreValidationRules.length ≠ 0 := by
    simpa [List.length_eq_zero] using hrules
  have herrlen : (validateF schema doc moreValidationRules).length ≠ 0 := by
    simpa [List.length_eq_zero] using herrs
  constructor
  · simp [onOperation, hlen, herrlen]
  · intro hstatic
    simp [onSubscribe, hstatic, hlen, herrlen]

/-- C5 witness: a concrete validate function that flags every rule: with one
per-request rule, both protocol adapters reject with exactly that violation
list. -/
theorem websocket_validation_rejects_witness :
    onOperation (fun _ _ rules => rules.map (fun r => toString r)) 0 0 [3] 0
      = Except.error ["3"]
    ∧ onSubscribe (fun _ _ rules => rules.map (fun r => toString r)) 0 0 [] [3] 0
      = Except.error ["3"] := by
  have h := websocket_validation_rejects (fun _ _ rules => rules.map (fun r => toString r))
    0 0 [] [3] 0 0 (by decide) (by simp)
  exact ⟨h.1, h.2 (by simp)⟩

/-! ## Schema build orchestrator (postgraphile.ts, getPostgraphileSchemaBuilder)

The builder's mutable variables are gathered in BuilderState: the gqlSchema
variable (a schema snapshot is an opaque number; none models the JS
undefined), the releaseWatchFn variable (whether a watch release function is
currently installed), the released guard of releaseOnce, and whether the
internally-created pg pool has been ended.

External collaborators are parameters: createPostGraphileSchema is a function
from the attempt index (the value of the attempts counter on entry to the try
block) to none (it throws) or some schema; watchPostGraphileSchema is a
function from the attempt index to a WatchResult — it can throw, resolve
after having invoked the schema callback, or resolve without invoking it.
retryOnInitFail is absent, a non-function truthy value, or a hook mapping the
caught error and the attempt count to a HookResult (the hook can itself
reject). The hrtime-measured duration of the hook call is part of HookResult.

Waits, hook invocations and the process.exit(34) call are recorded as events;
the loop is driven by explicit fuel since with an always-approving hook and a
forever-failing build the source loop never terminates. -/

inductive BuildError where
  | transient
  | watchFnAlreadySet
  | watchNoCallback
deriving DecidableEq

inductive HookResult where
  | ret (retry : Bool) (dur : Nat)
  | throws
deriving DecidableEq

inductive RetryOption where
  | noHook
  | truthyNonFunction
  | hook (h : BuildError → Nat → HookResult)

structure Options where
  watchPg : Bool
  retryOnInitFail : RetryOption

inductive WatchResult where
  | throws
  | okCalled (g : Nat)
  | okNotCalled
deriving DecidableEq

inductive Event where
  | hookCall (attempt : Nat)
  | sleep (ms : Nat)
  | exitProcess (code : Nat)
deriving DecidableEq

inductive Outcome where
  | success (g : Nat)
  | failed503
  | exited (code : Nat)
  | outOfFuel
deriving DecidableEq

structure BuilderState where
  gqlSchema : Option Nat
  releaseWatchFn : Bool
  released : Bool
  poolEnded : Bool
deriving DecidableEq

def initialBuilderState : BuilderState :=
  { gqlSchema := none, releaseWatchFn := false, released := false, poolEnded := false }

/-- releaseWatch from postgraphile.ts: awaits and clears the watch release
function when one is installed. -/
def releaseWatch (st : BuilderState) : BuilderState :=
  if st.releaseWatchFn then { st with releaseWatchFn := false } else st

/-- releaseOnce from postgraphile.ts: throws when already released, otherwise
marks released, releases the watch, and runs releasePgPool when one was
handed in (hasReleasePgPool — non-null exactly when the pool was created
internally, in which case it ends the pool). -/
def releaseOnce (hasReleasePgPool : Bool) (st : BuilderState) : Except String BuilderState :=
  if st.released then
    Except.error
      "Already released this PostGraphile schema builder; should not have attempted a second release"
  else
    let st1 := releaseWatch { st with released := true }
    if hasReleasePgPool then Except.ok { st1 with poolEnded := true } else Except.ok st1

/-- The try block of createGqlSchema: in watch mode, guard against an
already-installed releaseWatchFn, run watchPostGraphileSchema (whose callback,
when invoked, assigns gqlSchema), and raise the consistency error when the
watch promise resolved without the callback having set gqlSchema; otherwise
run createPostGraphileSchema. Returns the thrown error or the schema, with
the updated state. -/
def tryBody (opts : Options) (buildResult : Nat → Option Nat) (watchResult : Nat → WatchResult)
    (attempts : Nat) (st : BuilderState) : (BuildError ⊕ Nat) × BuilderState :=
  if opts.watchPg then
    if st.releaseWatchFn then (Sum.inl BuildError.watchFnAlreadySet, st)
    else
      match watchResult attempts with
      | WatchResult.throws => (Sum.inl BuildError.transient, st)
      | WatchResult.okCalled g =>
        (Sum.inr g, { st with releaseWatchFn := true, gqlSchema := some g })
      | WatchResult.okNotCalled =>
        match st.gqlSchema with
        | some g => (Sum.inr g, { st with releaseWatchFn := true })
        | none => (Sum.inl BuildError.watchNoCallback, { st with releaseWatchFn := true })
  else
    match buildResult attempts with
    | some g => (Sum.inr g, { st with gqlSchema := some g })
    | none => (Sum.inl BuildError.transient, st)

/-- The while(true) loop of createGqlSchema. On a caught error: increment
attempts, compute delay = min(100 * attempts², 30000); with a hook, invoke it
(recording the event) — a rejecting hook or a veto ends the loop with the
wrapped 503 GraphQLError (the veto path running releaseOnce first); an
approval sleeps the default delay exactly when the hook returned in under
50ms, then retries. With retryOnInitFail set but not a function, sleep and
retry; with it absent, process.exit(34). -/
def createGqlSchemaLoop (opts : Options) (buildResult : Nat → Option Nat)
    (watchResult : Nat → WatchResult) (hasReleasePgPool : Bool) :
    Nat → Nat → BuilderState → List Event × Outcome × BuilderState
  | 0, _, st => ([], Outcome.outOfFuel, st)
  | fuel + 1, attempts, st =>
    match tryBody opts buildResult watchResult attempts st with
    | (Sum.inr g, st1) => ([], Outcome.success g, st1)
    | (Sum.inl error, st1) =>
      let attempts1 := attempts + 1
      let delay := min (100 * attempts1 ^ 2) 30000
      match opts.retryOnInitFail with
      | RetryOption.hook h =>
        match h error attempts1 with
        | HookResult.throws => ([Event.hookCall attempts1], Outcome.failed503, st1)
        | HookResult.ret retry dur =>
          if retry then
            if dur < 50 then
              let r := createGqlSchemaLoop opts buildResult watchResult hasReleasePgPool
                fuel attempts1 st1
              (Event.hookCall attempts1 :: Event.sleep delay :: r.1, r.2.1, r.2.2)
            else
              let r := createGqlSchemaLoop opts buildResult watchResult hasReleasePgPool
                fuel attempts1 st1
              (Event.hookCall attempts1 :: r.1, r.2.1, r.2.2)
          else
            match releaseOnce hasReleasePgPool st1 with
            | Except.ok st2 => ([Event.hookCall attempts1], Outcome.failed503, st2)
            | Except.error _ => ([Event.hookCall attempts1], Outcome.failed503, st1)
      | RetryOption.truthyNonFunction =>
        let r := createGqlSchemaLoop opts buildResult watchResult hasReleasePgPool
          fuel attempts1 st1
        (Event.sleep delay :: r.1, r.2.1, r.2.2)
      | RetryOption.noHook => ([Event.exitProcess 34], Outcome.exited 34, st1)

/-- createGqlSchema from postgraphile.ts: run the retry loop from a fresh
builder state with the attempts counter at 0. -/
def createGqlSchema (opts : Options) (buildResult : Nat → Option Nat)
    (watchResult : Nat → WatchResult) (hasReleasePgPool : Bool) (fuel : Nat) :
    List Event × Outcome × BuilderState :=
  createGqlSchemaLoop opts buildResult watchResult hasReleasePgPool fuel 0 initialBuilderState

/-- getGraphQLSchema from the builder record: when the gqlSchema variable is
assigned, a promise resolved with it; otherwise the single stored
gqlSchemaPromise (promises are identified by number). -/
inductive GetSchemaResult where
  | resolvedSchema (g : Nat)
  | inflight (p : Nat)
deriving DecidableEq

def getGraphQLSchema (gqlSchema : Option Nat) (gqlSchemaPromise : Nat) : GetSchemaResult :=
  match gqlSchema with
  | some g => GetSchemaResult.resolvedSchema g
  | none => GetSchemaResult.inflight gqlSchemaPromise

/-- A build that fails on the first n attempt indices and then succeeds with
schema g. -/
def failNTimes (n g : Nat) : Nat → Option Nat :=
  fun i => if i < n then none else some g

/-- C3: releasing a builder whose released guard is unset succeeds — clearing
any installed watch release function and, exactly when a releasePgPool
callback was handed in (the pool was created internally by the adapter),
ending the pool — and a second release on the resulting state raises the
double-release error. -/
theorem releaseOnce_guard (hasReleasePgPool : Bool) (st : BuilderState)
    (h : st.released = false) :
    releaseOnce hasReleasePgPool st
      = Except.ok { gqlSchema := st.gqlSchema, releaseWatchFn := false, released := true,
                    poolEnded := st.poolEnded || hasReleasePgPool }
    ∧ ∀ hp2 : Bool, releaseOnce hp2
        { gqlSchema := st.gqlSchema, releaseWatchFn := false, released := true,
          poolEnded := st.poolEnded || hasReleasePgPool }
      = Except.error
          "Already released this PostGraphile schema builder; should not have attempted a second release" := by
  constructor
  · cases hw : st.releaseWatchFn <;> cases hp : hasReleasePgPool <;>
      simp [releaseOnce, releaseWatch, h, hw, hp]
  · intro hp2
    simp [releaseOnce]

/-- C3 witness: releasing a fresh builder with an internally-created pool ends
the pool; releasing again errors. -/
theorem releaseOnce_guard_witness :
    releaseOnce true initialBuilderState
      = Except.ok
        { gqlSchema := none, releaseWatchFn := false, released := true, poolEnded := true }
    ∧ releaseOnce true
        { gqlSchema := none, releaseWatchFn := false, released := true, poolEnded := true }
      = Except.error
          "Already released this PostGraphile schema builder; should not have attempted a second release" := by
  have h := releaseOnce_guard true initialBuilderState rfl
  exact ⟨h.1, h.2 true⟩

/-- The event trace the retry loop should produce when every attempt up to the
a-th has already happened: for each further failure k it records the hook call
at attempt a+k+1 followed by the default backoff wait. -/
def expectedRetryTrace : Nat → Nat → List Event
  | 0, _ => []
  | n + 1, a =>
    Event.hookCall (a + 1) :: Event.sleep (min (100 * (a + 1) ^ 2) 30000)
      :: expectedRetryTrace n (a + 1)

theorem createGqlSchemaLoop_retry_trace (g : Nat) (w : Nat → WatchResult) (hp : Bool)
    (dur : BuildError → Nat → Nat) (hook : BuildError → Nat → HookResult)
    (hhook : ∀ e k, hook e k = HookResult.ret true (dur e k))
    (hdur : ∀ e k, dur e k < 50) :
    ∀ (M a fuel : Nat) (build : Nat → Option Nat) (st : BuilderState),
      M < fuel → (∀ j, j < M → build (a + j) = none) → build (a + M) = some g →
      createGqlSchemaLoop ⟨false, RetryOption.hook hook⟩ build w hp fuel a st
        = (expectedRetryTrace M a, Outcome.success g, { st with gqlSchema := some g }) := by
  intro M
  induction M with
  | zero =>
    intro a fuel build st hfuel h1 h2
    cases fuel with
    | zero => omega
    | succ f =>
      have hb : build a = some g := by simpa using h2
      simp [createGqlSchemaLoop, tryBody, hb, expectedRetryTrace]
  | succ M ih =>
    intro a fuel build st hfuel h1 h2
    cases fuel with
    | zero => omega
    | succ f =>
      have hb : build a = none := by simpa using h1 0 (Nat.succ_pos M)
      have hrec := ih (a + 1) f build st (by omega)
        (fun j hj => by
          have hx := h1 (j + 1) (by omega)
          rw [show a + 1 + j = a + (j + 1) by omega]
          exact hx)
        (by
          rw [show a + 1 + M = a + (M + 1) by omega]
          exact h2)
      simp only [createGqlSchemaLoop, tryBody, hb, if_neg (by simp : ¬(false = true)), hhook,
        if_pos (hdur BuildError.transient (a + 1)), hrec, expectedRetryTrace]
      simp [hrec]

theorem expectedRetryTrace_eq_flatMap :
    ∀ (n a : Nat), expectedRetryTrace n a
      = (List.range n).flatMap
          (fun k => [Event.hookCall (a + k + 1),
                     Event.sleep (min (100 * (a + k + 1) ^ 2) 30000)]) := by
  intro n
  induction n with
  | zero => intro a; simp [expectedRetryTrace]
  | succ n ih =>
    intro a
    rw [List.range_succ_eq_map, List.flatMap_cons, List.flatMap_map]
    simp only [expectedRetryTrace, ih (a + 1)]
    simp [List.flatMap, Function.comp, Nat.succ_eq_add_one]
    congr 1
    refine List.map_congr_left (fun k hk => ?_)
    rw [show a + 1 + k + 1 = a + (k + 1) + 1 by omega]

def sleepMs : Event → Option Nat
  | Event.sleep ms => some ms
  | _ => none

def hookCallAttempt : Event → Option Nat
  | Event.hookCall attempt => some attempt
  | _ => none

theorem expectedRetryTrace_sleeps :
    ∀ (n a : Nat), (expectedRetryTrace n a).filterMap sleepMs
      = (List.range n).map (fun k => min (100 * (a + k + 1) ^ 2) 30000) := by
  intro n
  induction n with
  | zero => intro a; simp [expectedRetryTrace]
  | succ n ih =>
    intro a
    rw [List.range_succ_eq_map]
    simp only [expectedRetryTrace, List.filterMap_cons, sleepMs, hookCallAttempt, ih (a + 1),
      List.map_cons, List.map_map]
    congr 1
    refine List.map_congr_left (fun k hk => ?_)
    simp only [Function.comp, Nat.succ_eq_add_one]
    rw [show a + 1 + k + 1 = a + (k + 1) + 1 by omega]

theorem expectedRetryTrace_hooks :
    ∀ (n a : Nat), (expectedRetryTrace n a).filterMap hookCallAttempt
      = (List.range n).map (fun k => a + k + 1) := by
  intro n
  induction n with
  | zero => intro a; simp [expectedRetryTrace]
  | succ n ih =>
    intro a
    rw [List.range_succ_eq_map]
    simp only [expectedRetryTrace, List.filterMap_cons, sleepMs, hookCallAttempt, ih (a + 1),
      List.map_cons, List.map_map]
    congr 1
    refine List.map_congr_left (fun k hk => ?_)
    simp only [Function.comp, Nat.succ_eq_add_one]
    omega

/-- C2: for a build that fails N times and then succeeds, run with an
approving retry hook each of whose calls returns in under 50ms, the
orchestrator records, in order, for each k = 1..N one hook invocation at
attempt k followed by one retry wait of min(100 * k², 30000) milliseconds —
so exactly N waits with the specified delays, and hook attempt numbers
strictly increasing 1..N (the default backoff wait is applied even though the
hook approved, because it returned in under 50ms) — and then resolves with
the built schema. -/
theorem createGqlSchema_retry_backoff (N g fuel : Nat)
    (watchResult : Nat → WatchResult) (hasReleasePgPool : Bool)
    (dur : BuildError → Nat → Nat) (hook : BuildError → Nat → HookResult)
    (hhook : ∀ e k, hook e k = HookResult.ret true (dur e k))
    (hdur : ∀ e k, dur e k < 50)
    (hfuel : N < fuel) :
    (createGqlSchema { watchPg := false, retryOnInitFail := RetryOption.hook hook }
        (failNTimes N g) watchResult hasReleasePgPool fuel).1
      = (List.range N).flatMap
          (fun k => [Event.hookCall (k + 1), Event.sleep (min (100 * (k + 1) ^ 2) 30000)])
    ∧ ((createGqlSchema { watchPg := false, retryOnInitFail := RetryOption.hook hook }
        (failNTimes N g) watchResult hasReleasePgPool fuel).1).filterMap sleepMs
      = (List.range N).map (fun k => min (100 * (k + 1) ^ 2) 30000)
    ∧ ((createGqlSchema { watchPg := false, retryOnInitFail := RetryOption.hook hook }
        (failNTimes N g) watchResult hasReleasePgPool fuel).1).filterMap hookCallAttempt
      = (List.range N).map (fun k => k + 1)
    ∧ (createGqlSchema { watchPg := false, retryOnInitFail := RetryOption.hook hook }
        (failNTimes N g) watchResult hasReleasePgPool fuel).2.1
      = Outcome.success g := by
  have hrun := createGqlSchemaLoop_retry_trace g watchResult hasReleasePgPool dur hook hhook hdur
    N 0 fuel (failNTimes N g) initialBuilderState hfuel
    (fun j hj => by simp [failNTimes, hj])
    (by simp [failNTimes])
  have htrace : (createGqlSchema { watchPg := false, retryOnInitFail := RetryOption.hook hook }
      (failNTimes N g) watchResult hasReleasePgPool fuel).1 = expectedRetryTrace N 0 := by
    unfold createGqlSchema
    rw [hrun]
  have houtcome : (createGqlSchema { watchPg := false, retryOnInitFail := RetryOption.hook hook }
      (failNTimes N g) watchResult hasReleasePgPool fuel).2.1 = Outcome.success g := by
    unfold createGqlSchema
    rw [hrun]
  refine ⟨?_, ?_, ?_, houtcome⟩
  · rw [htrace, expectedRetryTrace_eq_flatMap]
    simp
  · rw [htrace, expectedRetryTrace_sleeps]
    simp
  · rw [htrace, expectedRetryTrace_hooks]
    simp

/-- C2 witness: two failures then success with an instantly-approving hook:
the trace is hook call 1, wait 100ms, hook call 2, wait 400ms, then success. -/
theorem createGqlSchema_retry_backoff_witness :
    (createGqlSchema
        { watchPg := false, retryOnInitFail := RetryOption.hook (fun _ _ => HookResult.ret true 0) }
        (failNTimes 2 7) (fun _ => WatchResult.okCalled 0) true 3).1
      = (List.range 2).flatMap
          (fun k => [Event.hookCall (k + 1), Event.sleep (min (100 * (k + 1) ^ 2) 30000)])
    ∧ (createGqlSchema
        { watchPg := false, retryOnInitFail := RetryOption.hook (fun _ _ => HookResult.ret true 0) }
        (failNTimes 2 7) (fun _ => WatchResult.okCalled 0) true 3).2.1
      = Outcome.success 7 := by
  have h := createGqlSchema_retry_backoff 2 7 3 (fun _ => WatchResult.okCalled 0) true
    (fun _ _ => 0) (fun _ _ => HookResult.ret true 0) (fun _ _ => rfl) (fun _ _ => Nat.succ_pos 49)
    (by omega)
  exact ⟨h.1, h.2.2.2⟩

/-- C4 counterexample: watch mode with a watch mechanism that resolves without
invoking the schema callback, under an approving retry hook: the consistency
error is not fatal — the orchestrator consults the hook and performs a retry
wait (events hookCall 1, sleep 100), then fails again the same way (hookCall
2, sleep 400) and keeps retrying until fuel runs out. This refutes the claim
that the broken watch contract is raised as a fatal error rather than treated
as a retried transient failure: the thrown consistency error is caught by the
same catch block that handles transient build failures. -/
theorem createGqlSchema_watch_no_callback_counterexample :
    createGqlSchema
        { watchPg := true, retryOnInitFail := RetryOption.hook (fun _ _ => HookResult.ret true 0) }
        (fun _ => none) (fun _ => WatchResult.okNotCalled) true 2
      = ([Event.hookCall 1, Event.sleep 100, Event.hookCall 2, Event.sleep 400],
         Outcome.outOfFuel,
         { gqlSchema := none, releaseWatchFn := true, released := false, poolEnded := false }) := by
  decide

/-- C4 (amended): when the watch promise resolves without the callback having
assigned a schema, the try block raises the consistency error
(watchNoCallback) with the watch release function now installed; this error
flows into the generic retry path: with no retry hook configured the process
exits fatally with code 34, but with an approving retry hook the orchestrator
treats it like a transient failure and retries after a backoff wait. -/
theorem createGqlSchema_watch_no_callback
    (build : Nat → Option Nat) (w : Nat → WatchResult) (hp : Bool) (r : RetryOption)
    (fuel : Nat) (dur : BuildError → Nat → Nat) (hook : BuildError → Nat → HookResult)
    (hw : w 0 = WatchResult.okNotCalled)
    (hhook : ∀ e k, hook e k = HookResult.ret true (dur e k))
    (hdur : ∀ e k, dur e k < 50) :
    tryBody { watchPg := true, retryOnInitFail := r } build w 0 initialBuilderState
      = (Sum.inl BuildError.watchNoCallback,
         { gqlSchema := none, releaseWatchFn := true, released := false, poolEnded := false })
    ∧ createGqlSchema { watchPg := true, retryOnInitFail := RetryOption.noHook }
        build w hp (fuel + 1)
      = ([Event.exitProcess 34], Outcome.exited 34,
         { gqlSchema := none, releaseWatchFn := true, released := false, poolEnded := false })
    ∧ (createGqlSchema { watchPg := true, retryOnInitFail := RetryOption.hook hook }
        build w hp (fuel + 2)).1.take 2
      = [Event.hookCall 1, Event.sleep 100] := by
  have htry : ∀ r2 : RetryOption,
      tryBody { watchPg := true, retryOnInitFail := r2 } build w 0 initialBuilderState
        = (Sum.inl BuildError.watchNoCallback,
           { gqlSchema := none, releaseWatchFn := true, released := false, poolEnded := false }) := by
    intro r2
    simp [tryBody, hw, initialBuilderState]
  refine ⟨htry r, ?_, ?_⟩
  · unfold createGqlSchema
    simp only [createGqlSchemaLoop, htry RetryOption.noHook]
  · unfold createGqlSchema
    simp only [createGqlSchemaLoop, htry (RetryOption.hook hook),
      hhook BuildError.watchNoCallback 1, if_pos (hdur BuildError.watchNoCallback 1)]
    norm_num

/-- C4 witness for the amended claim: a concrete broken watch mechanism with
no retry hook exits with code 34, and with an instantly-approving hook the
first two recorded events are the hook call and the backoff wait. -/
theorem createGqlSchema_watch_no_callback_witness :
    createGqlSchema { watchPg := true, retryOnInitFail := RetryOption.noHook }
        (fun _ => none) (fun _ => WatchResult.okNotCalled) true 1
      = ([Event.exitProcess 34], Outcome.exited 34,
         { gqlSchema := none, releaseWatchFn := true, released := false, poolEnded := false })
    ∧ (createGqlSchema
        { watchPg := true, retryOnInitFail := RetryOption.hook (fun _ _ => HookResult.ret true 1) }
        (fun _ => none) (fun _ => WatchResult.okNotCalled) true 2).1.take 2
      = [Event.hookCall 1, Event.sleep 100] := by
  have h := createGqlSchema_watch_no_callback (fun _ => none) (fun _ => WatchResult.okNotCalled)
    true RetryOption.noHook 0 (fun _ _ => 1) (fun _ _ => HookResult.ret true 1) rfl
    (fun _ _ => rfl) (fun _ _ => Nat.lt_of_sub_eq_succ rfl)
  exact ⟨h.2.1, h.2.2⟩

theorem tryBody_success_gqlSchema (opts : Options) (build : Nat → Option Nat)
    (w : Nat → WatchResult) (attempts : Nat) (st : BuilderState) (g : Nat)
    (st1 : BuilderState) (h : tryBody opts build w attempts st = (Sum.inr g, st1)) :
    st1.gqlSchema = some g := by
  unfold tryBody at h
  split at h
  · split at h
    · simp at h
    · split at h
      · simp at h
      · simp only [Prod.mk.injEq, Sum.inr.injEq] at h
        rw [← h.2]
        simp [h.1]
      · split at h
        · simp only [Prod.mk.injEq, Sum.inr.injEq] at h
          rw [← h.2]
          simp_all
        · simp at h
  · split at h
    · simp only [Prod.mk.injEq, Sum.inr.injEq] at h
      rw [← h.2]
      simp [h.1]
    · simp at h

theorem createGqlSchemaLoop_success_gqlSchema (opts : Options) (build : Nat → Option Nat)
    (w : Nat → WatchResult) (hp : Bool) :
    ∀ (fuel a : Nat) (st : BuilderState) (g : Nat),
      (createGqlSchemaLoop opts build w hp fuel a st).2.1 = Outcome.success g →
      (createGqlSchemaLoop opts build w hp fuel a st).2.2.gqlSchema = some g := by
  intro fuel
  induction fuel with
  | zero =>
    intro a st g h
    simp [createGqlSchemaLoop] at h
  | succ f ih =>
    intro a st g h
    rcases htb : tryBody opts build w a st with ⟨res, st1⟩
    cases res with
    | inr g2 =>
      simp only [createGqlSchemaLoop, htb] at h ⊢
      simp only [Outcome.success.injEq] at h
      rw [← h]
      exact tryBody_success_gqlSchema opts build w a st g2 st1 htb
    | inl error =>
      cases hro : opts.retryOnInitFail with
      | noHook =>
        simp only [createGqlSchemaLoop, htb, hro] at h
        simp at h
      | truthyNonFunction =>
        simp only [createGqlSchemaLoop, htb, hro] at h ⊢
        exact ih (a + 1) st1 g h
      | hook hk =>
        cases hhr : hk error (a + 1) with
        | throws =>
          simp only [createGqlSchemaLoop, htb, hro, hhr] at h
          simp at h
        | ret retry dur =>
          cases retry with
          | false =>
            simp only [createGqlSchemaLoop, htb, hro, hhr] at h
            rcases hrel : releaseOnce hp st1 with st2 | st2 <;> rw [hrel] at h <;> simp at h
          | true =>
            by_cases hd : dur < 50
            · simp only [createGqlSchemaLoop, htb, hro, hhr, if_pos hd, if_true] at h ⊢
              exact ih (a + 1) st1 g h
            · simp only [createGqlSchemaLoop, htb, hro, hhr, if_neg hd, if_true] at h ⊢
              exact ih (a + 1) st1 g h

/-- C6: while the initial build is in flight (the gqlSchema variable is still
unassigned) every call to getGraphQLSchema returns the one stored
gqlSchemaPromise — the same in-flight promise for all concurrent callers, so
no second build is started and all callers resolve to the same snapshot — and
once a run of createGqlSchema has succeeded with snapshot g, getGraphQLSchema
on the resulting builder state resolves to g. -/
theorem getGraphQLSchema_single_flight
    (p : Nat) (opts : Options) (build : Nat → Option Nat) (w : Nat → WatchResult)
    (hp : Bool) (fuel : Nat) (g : Nat)
    (hrun : (createGqlSchema opts build w hp fuel).2.1 = Outcome.success g) :
    (∀ q : Nat, getGraphQLSchema none q = GetSchemaResult.inflight q)
    ∧ getGraphQLSchema (createGqlSchema opts build w hp fuel).2.2.gqlSchema p
        = GetSchemaResult.resolvedSchema g := by
  refine ⟨fun q => rfl, ?_⟩
  have hs := createGqlSchemaLoop_success_gqlSchema opts build w hp fuel 0 initialBuilderState g hrun
  show getGraphQLSchema (createGqlSchemaLoop opts build w hp fuel 0 initialBuilderState).2.2.gqlSchema p = _
  rw [hs]
  rfl

/-- C6 witness: a build that succeeds immediately with snapshot 9: during the
build callers share the stored promise, and afterwards getGraphQLSchema
resolves to 9. -/
theorem getGraphQLSchema_single_flight_witness :
    getGraphQLSchema none 5 = GetSchemaResult.inflight 5
    ∧ getGraphQLSchema
        (createGqlSchema { watchPg := false, retryOnInitFail := RetryOption.noHook }
          (failNTimes 0 9) (fun _ => WatchResult.okCalled 0) true 1).2.2.gqlSchema 5
      = GetSchemaResult.resolvedSchema 9 := by
  have h := getGraphQLSchema_single_flight 5
    { watchPg := false, retryOnInitFail := RetryOption.noHook }
    (failNTimes 0 9) (fun _ => WatchResult.okCalled 0) true 1 9 rfl
  exact ⟨h.1 5, h.2⟩

/-! ## Connection pool adapter (postgraphile.ts, toPgPool / quacksLikePgPool)

JavaScript inputs to the adapter are modelled structurally: primitives carry
their value; an object carries the structural facts the adapter inspects —
whether it is an instance of the pg Pool class, whether its constructor is
Pool.super_, its constructor name, the truthiness of its Client and options
properties, whether connect/end/query are functions, and the two facts
isPlainObject checks (Object.prototype.toString tag and prototype). -/

structure JSObject where
  isPoolInstance : Bool
  ctorIsPoolSuper : Bool
  ctorName : Option String
  hasClient : Bool
  hasOptions : Bool
  hasConnect : Bool
  hasEnd : Bool
  hasQuery : Bool
  stringTagIsObjectObject : Bool
  protoIsNullOrObjectProto : Bool
deriving DecidableEq

inductive JSVal where
  | undef
  | null
  | boolean (b : Bool)
  | number (n : Int)
  | string (s : String)
  | stringArray (l : List String)
  | object (o : JSObject)
deriving DecidableEq

/-- JavaScript truthiness of a value. -/
def jsTruthyVal : JSVal → Bool
  | JSVal.undef => false
  | JSVal.null => false
  | JSVal.boolean b => b
  | JSVal.number n => n != 0
  | JSVal.string s => s != ""
  | JSVal.stringArray _ => true
  | JSVal.object _ => true

def isStringVal : JSVal → Bool
  | JSVal.string _ => true
  | _ => false

/-- isPlainObject from postgraphile.ts: a truthy object whose
Object.prototype.toString tag is [object Object] and whose prototype is null
or Object.prototype. -/
def isPlainObject : JSVal → Bool
  | JSVal.object o => o.stringTagIsObjectObject && o.protoIsNullOrObjectProto
  | _ => false

/-- hasPoolConstructor from postgraphile.ts: the value's constructor function
is Pool.super_. -/
def hasPoolConstructor : JSVal → Bool
  | JSVal.object o => o.ctorIsPoolSuper
  | _ => false

/-- constructorName from postgraphile.ts. Primitives report their wrapper
class; null and undefined have none. -/
def constructorName : JSVal → Option String
  | JSVal.undef => none
  | JSVal.null => none
  | JSVal.boolean _ => some "Boolean"
  | JSVal.number _ => some "Number"
  | JSVal.string _ => some "String"
  | JSVal.stringArray _ => some "Array"
  | JSVal.object o => o.ctorName

/-- quacksLikePgPool from postgraphile.ts: an instance of Pool, or a value
with the Pool super constructor, or — by diagnosis of exclusion — an object
whose constructor name is Pool or BoundPool carrying Client, options and
connect/end/query functions. -/
def quacksLikePgPool (pgConfig : JSVal) : Bool :=
  if (match pgConfig with | JSVal.object o => o.isPoolInstance | _ => false) then true
  else if hasPoolConstructor pgConfig then true
  else
    match pgConfig with
    | JSVal.object o =>
      if !(constructorName (JSVal.object o) = some "Pool"
            || constructorName (JSVal.object o) = some "BoundPool") then false
      else if !o.hasClient then false
      else if !o.hasOptions then false
      else if !o.hasConnect then false
      else if !o.hasEnd then false
      else if !o.hasQuery then false
      else true
    | _ => false

/-- How a pool handle was obtained: the caller's own value, or a pool newly
constructed by the adapter from a connection string, an empty default config,
or a plain config object. -/
inductive PoolSource where
  | connectionString (s : String)
  | emptyConfig
  | configObject (v : JSVal)
deriving DecidableEq

inductive PgPoolVal where
  | supplied (v : JSVal)
  | created (src : PoolSource)
deriving DecidableEq

/-- The releasePgPool closure the adapter returns for pools it created:
calling it ends that pool. -/
inductive ReleasePgPool where
  | endPool
deriving DecidableEq

structure PoolState where
  ended : Bool
deriving DecidableEq

def applyReleasePgPool : ReleasePgPool → PoolState → PoolState
  | ReleasePgPool.endPool, _ => { ended := true }

structure ToPgPoolResult where
  pgPool : PgPoolVal
  releasePgPool : Option ReleasePgPool
deriving DecidableEq

/-- toPgPool from postgraphile.ts: a quacking pool is used as-is with a null
release callback; a string builds a pool from a connection string; any falsy
value builds a pool from the empty default config; a plain object is passed
through as the pool config; anything else throws synchronously. -/
def toPgPool (poolOrConfig : JSVal) : Except String ToPgPoolResult :=
  if quacksLikePgPool poolOrConfig then
    Except.ok { pgPool := PgPoolVal.supplied poolOrConfig, releasePgPool := none }
  else
    match poolOrConfig with
    | JSVal.string s =>
      Except.ok { pgPool := PgPoolVal.created (PoolSource.connectionString s),
                  releasePgPool := some ReleasePgPool.endPool }
    | v =>
      if !jsTruthyVal v then
        Except.ok { pgPool := PgPoolVal.created PoolSource.emptyConfig,
                    releasePgPool := some ReleasePgPool.endPool }
      else if isPlainObject v then
        Except.ok { pgPool := PgPoolVal.created (PoolSource.configObject v),
                    releasePgPool := some ReleasePgPool.endPool }
      else Except.error "Invalid connection string / Pool "

/-- C7 counterexample: the number 0 is neither a pool handle nor a connection
string nor a plain config object nor an absent argument, yet toPgPool does
not raise an error on it: JS truthiness makes the adapter treat every falsy
value (0, false, NaN, null) like an absent argument and build a default
pool. This refutes the claim that any other input such as a number raises a
synchronous error. -/
theorem toPgPool_counterexample :
    toPgPool (JSVal.number 0)
      = Except.ok { pgPool := PgPoolVal.created PoolSource.emptyConfig,
                    releasePgPool := some ReleasePgPool.endPool } := rfl

/-- C7 (amended): a value structurally recognized as a pool handle is returned
as-is with a null release callback; a connection string, a plain config
object, or any falsy value (including an absent argument, but also 0 or
false) yields a newly created pool with a non-null release callback that ends
that pool; any other input — truthy, not a string, not recognized, not plain,
e.g. a non-zero number — raises the invalid-pool error synchronously. -/
theorem toPgPool_spec :
    (∀ v : JSVal, quacksLikePgPool v = true →
      toPgPool v = Except.ok { pgPool := PgPoolVal.supplied v, releasePgPool := none })
    ∧ (∀ s : String, toPgPool (JSVal.string s)
        = Except.ok { pgPool := PgPoolVal.created (PoolSource.connectionString s),
                      releasePgPool := some ReleasePgPool.endPool })
    ∧ (∀ v : JSVal, quacksLikePgPool v = false → isStringVal v = false →
        jsTruthyVal v = false →
        toPgPool v = Except.ok { pgPool := PgPoolVal.created PoolSource.emptyConfig,
                                 releasePgPool := some ReleasePgPool.endPool })
    ∧ (∀ v : JSVal, quacksLikePgPool v = false → isStringVal v = false →
        jsTruthyVal v = true → isPlainObject v = true →
        toPgPool v = Except.ok { pgPool := PgPoolVal.created (PoolSource.configObject v),
                                 releasePgPool := some ReleasePgPool.endPool })
    ∧ (∀ v : JSVal, quacksLikePgPool v = false → isStringVal v = false →
        jsTruthyVal v = true → isPlainObject v = false →
        toPgPool v = Except.error "Invalid connection string / Pool ")
    ∧ (∀ ps : PoolState, applyReleasePgPool ReleasePgPool.endPool ps = { ended := true }) := by
  refine ⟨?_, ?_, ?_, ?_, ?_, fun ps => rfl⟩
  · intro v hq
    simp [toPgPool, hq]
  · intro s
    have hq : quacksLikePgPool (JSVal.string s) = false := rfl
    simp [toPgPool, hq]
  · intro v hq hs ht
    cases v <;> simp_all [toPgPool, isStringVal, jsTruthyVal]
  · intro v hq hs ht hpl
    cases v <;> simp_all [toPgPool, isStringVal, jsTruthyVal, isPlainObject]
  · intro v hq hs ht hpl
    cases v <;> simp_all [toPgPool, isStringVal, jsTruthyVal, isPlainObject]

/-- C7 witness: a cross-module duck-typed pool object (constructor named
BoundPool, with Client, options, connect, end, query) is passed through with
a null release; a config-like plain object gets a fresh pool whose release
callback ends it; the number 5 raises the error. -/
theorem toPgPool_spec_witness :
    toPgPool (JSVal.object
        { isPoolInstance := false, ctorIsPoolSuper := false, ctorName := some "BoundPool",
          hasClient := true, hasOptions := true, hasConnect := true, hasEnd := true,
          hasQuery := true, stringTagIsObjectObject := false, protoIsNullOrObjectProto := false })
      = Except.ok { pgPool := PgPoolVal.supplied (JSVal.object
          { isPoolInstance := false, ctorIsPoolSuper := false, ctorName := some "BoundPool",
            hasClient := true, hasOptions := true, hasConnect := true, hasEnd := true,
            hasQuery := true, stringTagIsObjectObject := false,
            protoIsNullOrObjectProto := false }), releasePgPool := none }
    ∧ toPgPool (JSVal.number 5) = Except.error "Invalid connection string / Pool "
    ∧ applyReleasePgPool ReleasePgPool.endPool { ended := false } = { ended := true } := by
  have h := toPgPool_spec
  exact ⟨h.1 _ (by decide), h.2.2.2.2.1 (JSVal.number 5) (by decide) (by decide) (by decide)
    (by decide), h.2.2.2.2.2 { ended := false }⟩

/-! ## postgraphile entry point (postgraphile.ts)

A call is modelled by its argument list (arguments.length and positional
access; a missing position reads as undefined). The options payload does not
matter for the modelled checks; the result keeps the schema list (an
array-valued second argument is used as-is, a string becomes a singleton,
anything else defaults to the public schema, as getPostgraphileSchemaBuilder
then builds pgSchemas) together with the adapter's pool result. -/

/-- typeof x === 'object' (true for null, arrays and objects). -/
def typeofIsObject : JSVal → Bool
  | JSVal.null => true
  | JSVal.stringArray _ => true
  | JSVal.object _ => true
  | _ => false

structure PostgraphileSetup where
  pgSchemas : List String
  pgPool : PgPoolVal
  releasePgPool : Option ReleasePgPool
deriving DecidableEq

def postgraphile (args : List JSVal) : Except String PostgraphileSetup :=
  let poolOrConfig := args.getD 0 JSVal.undef
  let schemaOrOptions := args.getD 1 JSVal.undef
  let schemaResult : Except String (List String) :=
    match schemaOrOptions with
    | JSVal.string s => Except.ok [s]
    | JSVal.stringArray l => Except.ok l
    | other =>
      if typeofIsObject other then Except.ok ["public"]
      else if args.length > 1 then
        Except.error "The second argument to postgraphile was invalid... did you mean to set a schema?"
      else Except.ok ["public"]
  match schemaResult with
  | Except.error e => Except.error e
  | Except.ok pgSchemas =>
    if poolOrConfig = JSVal.undef ∧ 1 ≤ args.length then
      Except.error "The first argument to postgraphile was undefined... did you mean to set pool options?"
    else
      match toPgPool poolOrConfig with
      | Except.error e => Except.error e
      | Except.ok r =>
        Except.ok { pgSchemas := pgSchemas, pgPool := r.pgPool, releasePgPool := r.releasePgPool }

/-- C10: calling postgraphile with at least one argument whose first position
is explicitly undefined throws synchronously (either the second-argument error
or the undefined-first-argument error), while calling it with no arguments at
all succeeds, building the default public schema list and a pool created from
the empty default configuration (with the adapter's release callback). -/
theorem postgraphile_undefined_first_argument (args : List JSVal)
    (hlen : 1 ≤ args.length) (hfst : args.getD 0 JSVal.undef = JSVal.undef) :
    (postgraphile args).isOk = false
    ∧ postgraphile []
      = Except.ok { pgSchemas := ["public"], pgPool := PgPoolVal.created PoolSource.emptyConfig,
                    releasePgPool := some ReleasePgPool.endPool } := by
  constructor
  · unfold postgraphile
    rcases h1 : args.getD 1 JSVal.undef with _ | _ | b | n | s2 | l | o <;>
      simp only [h1, typeofIsObject] <;>
      first
        | (rw [if_pos ⟨hfst, hlen⟩]; rfl)
        | (split <;> first | rfl | (rw [if_pos ⟨hfst, hlen⟩]; rfl))
  · rfl

/-- C10 witness: postgraphile [undefined] fails while postgraphile [] builds
the default pool. -/
theorem postgraphile_undefined_first_argument_witness :
    (postgraphile [JSVal.undef]).isOk = false
    ∧ postgraphile []
      = Except.ok { pgSchemas := ["public"], pgPool := PgPoolVal.created PoolSource.emptyConfig,
                    releasePgPool := some ReleasePgPool.endPool } :=
  postgraphile_undefined_first_argument [JSVal.undef] (by decide) rfl
